import Mathlib

/-!
Shallow embedding of the configuration lexer / preprocessor of syslog-ng
(`cfg-lexer.c` in this repository's source).  Pure helpers (keyword
comparison, back-tick substitution, argument maps, the context name table,
generator registration) are translated directly; the stateful token pump
`cfg_lexer_lex` is embedded as a fuel-indexed function over an explicit
lexer state, with the external collaborators (the downstream grammar
parser re-entered for pragma and block-reference sub-parses, the include
machinery, and block generation callbacks) abstracted as oracle functions.
-/

namespace CfgLexerModel

/-! ## Token type constants

The numeric identities of the `LL_*` / `KW_*` token ids come from headers
(`cfg-lexer.h`, the generated grammar) that are not part of the sources;
the lexer code only compares them for equality, so any distinct values are
faithful.  `TOK_SEMICOLON` is the C character literal for a semicolon (59),
compared against the token id in the include branch of `cfg_lexer_lex`. -/

def LL_ERROR : Int := 10
def LL_NUMBER : Int := 11
def LL_IDENTIFIER : Int := 12
def LL_STRING : Int := 13
def LL_TOKEN : Int := 14
def LL_PRAGMA : Int := 15
def KW_INCLUDE : Int := 16
def TOK_SEMICOLON : Int := 59

/-! ## Lexer context types

Modelled from the spec: the `LL_CONTEXT_*` enumeration is declared in
`cfg-lexer.h`, which is not among the sources.  The spec lists the
eighteen named contexts in order; following the C convention visible in
the source (`0` is the "no context" sentinel used by
`cfg_lexer_get_context_type` on an empty stack and by the `any` context of
block generators), the values are 1..18 in the listed order. -/

def LL_CONTEXT_ROOT : Int := 1
def LL_CONTEXT_DESTINATION : Int := 2
def LL_CONTEXT_SOURCE : Int := 3
def LL_CONTEXT_PARSER : Int := 4
def LL_CONTEXT_REWRITE : Int := 5
def LL_CONTEXT_FILTER : Int := 6
def LL_CONTEXT_LOG : Int := 7
def LL_CONTEXT_BLOCK_DEF : Int := 8
def LL_CONTEXT_BLOCK_REF : Int := 9
def LL_CONTEXT_BLOCK_CONTENT : Int := 10
def LL_CONTEXT_BLOCK_ARG : Int := 11
def LL_CONTEXT_PRAGMA : Int := 12
def LL_CONTEXT_FORMAT : Int := 13
def LL_CONTEXT_TEMPLATE_FUNC : Int := 14
def LL_CONTEXT_INNER_DEST : Int := 15
def LL_CONTEXT_INNER_SRC : Int := 16
def LL_CONTEXT_CLIENT_PROTO : Int := 17
def LL_CONTEXT_SERVER_PROTO : Int := 18

/-- Modelled from the spec: `CFG_KEYWORD_STOP` is defined in `cfg-lexer.h`
(not among the sources); the spec names the sentinel spelling "@STOP@". -/
def CFG_KEYWORD_STOP : String := "@STOP@"

/-! ## Keyword tables and keyword lookup (`cfg_lexer_lookup_keyword`) -/

inductive KwStatus where
  | normal
  | obsolete
deriving Repr, DecidableEq

/-- One entry of a keyword table (`CfgLexerKeyword`).  A table is a list of
entries; the C NUL-name terminator is the end of the list. -/
structure CfgLexerKeyword where
  kw_name : String
  kw_token : Int
  kw_req_version : Int
  kw_status : KwStatus
  kw_explain : String
deriving Repr, DecidableEq

/-- One frame of the lexer context stack (`CfgLexerContext`): a context
type, an optional keyword table (NULL in C when keyword resolution is
disabled for the frame) and a description used in diagnostics. -/
structure CfgLexerContext where
  type : Int
  keywords : Option (List CfgLexerKeyword)
  desc : String
deriving Repr, DecidableEq

/-- Modelled from the spec: `cfg_check_current_config_version` lives in
`versioning.h` (not among the sources).  A keyword whose required version
exceeds the configuration's active version fails the check; versions are
packed `major<<8 | minor` integers compared numerically. -/
def cfg_check_current_config_version (active required : Int) : Bool :=
  required ≤ active

/-- The inner character-comparison loop of `cfg_lexer_lookup_keyword`:
the candidate and the entry spelling are walked in lockstep; a candidate
hyphen or underscore requires an underscore in the entry spelling, any
other candidate character must be equal; the match succeeds only when
both strings are exhausted together. -/
def kwMatch : List Char → List Char → Bool
  | [], [] => true
  | t :: ts, k :: ks =>
    if t = '-' ∨ t = '_' then
      if k = '_' then kwMatch ts ks else false
    else
      if t = k then kwMatch ts ks else false
  | _, _ => false

/-- Warnings emitted during keyword lookup. -/
inductive KwWarning where
  | reservedWord (kw : String) (reqVersion : Int)
  | obsoleteKeyword (kw : String) (explain : String)
deriving Repr, DecidableEq

/-- Outcome of scanning one keyword table, mirroring the exits of the
entry loop in `cfg_lexer_lookup_keyword`: the `@STOP@` sentinel forces an
identifier; a version-allowed match returns the token (with an obsolete
warning when the entry status warrants one); a version-gated match warns
and abandons the table (the `break` in the source); otherwise the table is
exhausted.  The source's in-place reset of `kw_status` to normal after a
match (which only silences repeat obsolete warnings on later calls) is not
tracked, as no claim depends on cross-call warning state. -/
inductive TableOutcome where
  | stop
  | matched (tok : Int) (warn : Option KwWarning)
  | gated (warn : KwWarning)
  | exhausted
deriving Repr, DecidableEq

def scanTable (ver : Int) (token : String) : List CfgLexerKeyword → TableOutcome
  | [] => TableOutcome.exhausted
  | e :: rest =>
    if e.kw_name = CFG_KEYWORD_STOP then
      TableOutcome.stop
    else if kwMatch token.toList e.kw_name.toList then
      if cfg_check_current_config_version ver e.kw_req_version then
        TableOutcome.matched e.kw_token
          (if e.kw_status = KwStatus.obsolete then
            some (KwWarning.obsoleteKeyword e.kw_name e.kw_explain)
          else none)
      else
        TableOutcome.gated (KwWarning.reservedWord e.kw_name e.kw_req_version)
    else
      scanTable ver token rest

/-- Result of `cfg_lexer_lookup_keyword`: the returned token id, the
fields of `yylval` it assigns (`lvalType = 0` on the identifier paths,
where the caller later defaults the type to the returned token), the
strdup'd lexeme when the token is treated as an identifier, and the
warnings emitted. -/
structure KwLookup where
  result : Int
  lvalType : Int
  lvalToken : Int
  cptr : Option String
  warns : List KwWarning
deriving Repr, DecidableEq

/-- `cfg_lexer_lookup_keyword`: walk the context stack from the top; for
each frame with a keyword table, scan it; a `@STOP@` sentinel or an
exhausted stack yields the lexeme as an identifier; a version-gated match
warns and moves on to the next (outer) frame. -/
def cfg_lexer_lookup_keyword (ver : Int) (token : String) :
    List CfgLexerContext → KwLookup
  | [] =>
    { result := LL_IDENTIFIER, lvalType := 0, lvalToken := 0,
      cptr := some token, warns := [] }
  | frame :: rest =>
    match frame.keywords with
    | none => cfg_lexer_lookup_keyword ver token rest
    | some tbl =>
      match scanTable ver token tbl with
      | TableOutcome.stop =>
        { result := LL_IDENTIFIER, lvalType := 0, lvalToken := 0,
          cptr := some token, warns := [] }
      | TableOutcome.matched t w =>
        { result := t, lvalType := LL_TOKEN, lvalToken := t,
          cptr := none, warns := w.toList }
      | TableOutcome.gated w =>
        let r := cfg_lexer_lookup_keyword ver token rest
        { r with warns := w :: r.warns }
      | TableOutcome.exhausted => cfg_lexer_lookup_keyword ver token rest

/-! ## Context name table (`lexer_contexts`) and the two lookups

The designated-initializer array in the source names seventeen contexts;
index 0 and the index of `LL_CONTEXT_BLOCK_ARG` carry no initializer and
are therefore NULL, modelled as `none`.  `G_N_ELEMENTS` of the array is 19
(largest initialized index 18, plus one). -/

def lexer_contexts : List (Option String) :=
  [none,
   some "root", some "destination", some "source", some "parser",
   some "rewrite", some "filter", some "log", some "block-def",
   some "block-ref", some "block-content",
   none,
   some "pragma", some "format", some "template-func", some "inner-dest",
   some "inner-src", some "client-proto", some "server-proto"]

/-- The scan loop of `cfg_lexer_lookup_context_type_by_name`: NULL slots
never compare equal to a name; a miss returns 0. -/
def lookupCtxAux (name : String) : Nat → List (Option String) → Int
  | _, [] => 0
  | i, entry :: rest =>
    match entry with
    | some n => if n = name then Int.ofNat i else lookupCtxAux name (i + 1) rest
    | none => lookupCtxAux name (i + 1) rest

def cfg_lexer_lookup_context_type_by_name (name : String) : Int :=
  lookupCtxAux name 0 lexer_contexts

/-- `cfg_lexer_lookup_context_name_by_type`: asserts the type is in range
of the array and returns the (possibly NULL) entry. -/
def cfg_lexer_lookup_context_name_by_type (type : Int) : Option String :=
  if 0 ≤ type ∧ type < 19 then lexer_contexts.getD type.toNat none else none

/-! ## Argument maps (`CfgArgs`)

The C type wraps a GHashTable keyed by normalized strings; the model is an
association list whose order stands for the hash table's iteration order
(insertions append, and `g_hash_table_insert` on an existing key keeps the
entry's position while replacing its value). -/

/-- Modelled from the spec: `normalize_key` lives in `misc.c` (not among
the sources); the spec defines normalization as ASCII lowercasing plus
replacement of hyphens by underscores. -/
def normalize_key (name : String) : String :=
  String.mk (name.toList.map (fun c => if c = '-' then '_' else c.toLower))

structure CfgArgs where
  args : List (String × String)
deriving Repr, DecidableEq

/-- Raw key lookup in the underlying table. -/
def alist_lookup (l : List (String × String)) (k : String) : Option String :=
  (l.find? (fun p => p.1 == k)).map (fun p => p.2)

/-- Value replacement keeping the entry's position, appending when the key
is new (`g_hash_table_insert`). -/
def alist_set : List (String × String) → String → String → List (String × String)
  | [], k, v => [(k, v)]
  | (k0, v0) :: rest, k, v =>
    if k0 = k then (k, v) :: rest else (k0, v0) :: alist_set rest k v

/-- `cfg_args_set`: inserts under the normalized key. -/
def cfg_args_set (self : CfgArgs) (name value : String) : CfgArgs :=
  ⟨alist_set self.args (normalize_key name) value⟩

/-- `cfg_args_get`: tries the raw key first, then its normalized form. -/
def cfg_args_get (self : CfgArgs) (name : String) : Option String :=
  match alist_lookup self.args name with
  | some v => some v
  | none => alist_lookup self.args (normalize_key name)

/-! ## Back-tick substitution (`cfg_lexer_subst_args`) -/

/-- The back-tick character, written by code point to keep it out of the
source text proper. -/
def bq : Char := Char.ofNat 96

/-- The scope chain of `cfg_lexer_subst_args` for one closed reference:
`args`, then `defs`, then `globals` (each skipped when the C pointer is
NULL, i.e. `none`, or when the lookup misses), then the process
environment, abstracted as a function. -/
def substLookup (args defs globals : Option CfgArgs) (env : String → Option String)
    (name : String) : Option String :=
  match args.bind (fun a => cfg_args_get a name) with
  | some v => some v
  | none =>
    match defs.bind (fun a => cfg_args_get a name) with
    | some v => some v
    | none =>
      match globals.bind (fun a => cfg_args_get a name) with
      | some v => some v
      | none => env name

/-- The scan loop of `cfg_lexer_subst_args`: `backtick` is the mode flag,
`refAcc` accumulates the characters of the reference currently open (the
region between `ref_start` and `p` in the C code), `result` the output.
Outside a reference a back-tick opens one and any other character is
copied; inside a reference a back-tick closes it — an empty reference
emits one literal back-tick, otherwise the name is resolved through the
scope chain and the hit (or the empty string) is appended.  Termination
with the flag still set is the unterminated-reference hard error (the C
function frees the result and returns NULL). -/
def substAux (args defs globals : Option CfgArgs) (env : String → Option String) :
    List Char → Bool → List Char → List Char → Option (List Char)
  | [], backtick, _, result => if backtick then none else some result
  | c :: rest, false, refAcc, result =>
    if c = bq then substAux args defs globals env rest true [] result
    else substAux args defs globals env rest false refAcc (result ++ [c])
  | c :: rest, true, refAcc, result =>
    if c = bq then
      if refAcc = [] then
        substAux args defs globals env rest false [] (result ++ [bq])
      else
        let arg := substLookup args defs globals env (String.mk refAcc)
        substAux args defs globals env rest false [] (result ++ (arg.getD "").toList)
    else
      substAux args defs globals env rest true (refAcc ++ [c]) result

/-- `cfg_lexer_subst_args`: on success returns the substituted text and
the reported length (`*length`, the character count of the result);
`none` is the NULL return.  The Windows path-escaping of environment hits
is outside the modelled platform. -/
def cfg_lexer_subst_args (globals defs args : Option CfgArgs)
    (env : String → Option String) (cptr : String) : Option (String × Nat) :=
  (substAux args defs globals env cptr.toList false [] []).map
    (fun r => (String.mk r, r.length))

/-! ## Block generators: find and register -/

/-- A registered block generator; the callback and its opaque data are
not part of the model — `cfg_lexer_register_block_generator` reports the
effect on the data through an explicit counter instead. -/
structure CfgBlockGenerator where
  context : Int
  name : String
deriving Repr, DecidableEq

/-- `cfg_lexer_find_generator`: first entry whose context is 0 (`any`) or
equal to the requested context and whose name matches. -/
def cfg_lexer_find_generator (gens : List CfgBlockGenerator) (context : Int)
    (name : String) : Option CfgBlockGenerator :=
  gens.find? (fun gen => (gen.context == 0 || gen.context == context) && gen.name == name)

/-- Outcome of `cfg_lexer_register_block_generator`: the resulting
generator list, how many times `generator_data_free` was invoked on the
incoming data, and whether the duplicate debug report was emitted. -/
structure RegisterResult where
  generators : List CfgBlockGenerator
  data_free_calls : Nat
  debug_reported : Bool
deriving Repr, DecidableEq

/-- `cfg_lexer_register_block_generator`: a hit in `cfg_lexer_find_generator`
rejects the registration — the list is unchanged, a debug message is
emitted and the incoming data is released once; otherwise the new
generator is appended. -/
def cfg_lexer_register_block_generator (gens : List CfgBlockGenerator)
    (context : Int) (name : String) : RegisterResult :=
  match cfg_lexer_find_generator gens context name with
  | some _ => ⟨gens, 1, true⟩
  | none => ⟨gens ++ [⟨context, name⟩], 0, false⟩

/-! ## User-defined blocks: `__VARARGS__` and `cfg_block_generate` -/

/-- A user-defined block (`CfgBlock`): template text plus the map of
permitted argument names with their defaults. -/
structure CfgBlock where
  content : String
  arg_defs : CfgArgs
deriving Repr, DecidableEq

/-- `_fill_varargs` (together with its `_resolve_unknown_blockargs_as_varargs`
callback): concatenate, in the argument map's iteration order,
"name(value) " for every argument not present in the block's `arg_defs`,
then store the result in `args` under `__VARARGS__`. -/
def _fill_varargs (block : CfgBlock) (args : CfgArgs) : CfgArgs :=
  let varargs := args.args.foldl
    (fun acc kv =>
      if cfg_args_get block.arg_defs kv.1 = none then
        acc ++ kv.1 ++ "(" ++ kv.2 ++ ") "
      else acc) ""
  cfg_args_set args "__VARARGS__" varargs

/-- Result of `cfg_block_generate`: the substituted expansion text with
its length (`none` on substitution failure, where the C code warns and
returns FALSE instead of pushing a buffer), and the argument map after
`_fill_varargs` mutated it. -/
structure BlockGenerate where
  expansion : Option (String × Nat)
  args : CfgArgs
deriving Repr, DecidableEq

/-- `cfg_block_generate`: fill `__VARARGS__`, then run substitution over
the block template with scopes (lexer globals, block arg defs, call
args).  The successful tail — pushing the expansion as a buffer include
frame named "<context> block <name>" via `cfg_lexer_include_buffer` — is
external to the sources and outside the model. -/
def cfg_block_generate (globals : CfgArgs) (env : String → Option String)
    (block : CfgBlock) (args : CfgArgs) : BlockGenerate :=
  let args2 := _fill_varargs block args
  { expansion := cfg_lexer_subst_args (some globals) (some block.arg_defs)
      (some args2) env block.content,
    args := args2 }

/-! ## Token values, locations, token blocks -/

/-- `YYSTYPE`: the token value.  `type` is the token kind tag, `token` the
wrapped token id when `type = LL_TOKEN`, `cptr` the owned lexeme of
identifier/string tokens (heap ownership is by-value here, so the C
`strdup` copies are identity). -/
structure YYSTYPE where
  type : Int
  token : Int
  cptr : String
deriving Repr, DecidableEq

/-- `YYLTYPE`: a source location. -/
structure YYLTYPE where
  first_line : Int
  first_column : Int
  last_line : Int
  last_column : Int
deriving Repr, DecidableEq

/-- `CfgTokenBlock`: an append-then-drain queue of pre-synthesized token
values. -/
structure CfgTokenBlock where
  pos : Nat
  tokens : List YYSTYPE
deriving Repr, DecidableEq

def cfg_token_block_new : CfgTokenBlock := ⟨0, []⟩

/-- `cfg_token_block_add_token` (the C code asserts the block has not been
drained yet; appending is modelled unconditionally). -/
def cfg_token_block_add_token (b : CfgTokenBlock) (t : YYSTYPE) : CfgTokenBlock :=
  { b with tokens := b.tokens ++ [t] }

/-- `cfg_token_block_get_token`: the next token if any, advancing the
cursor. -/
def cfg_token_block_get_token (b : CfgTokenBlock) : Option YYSTYPE × CfgTokenBlock :=
  if h : b.pos < b.tokens.length then
    (some (b.tokens.get ⟨b.pos, h⟩), { b with pos := b.pos + 1 })
  else
    (none, b)

/-! ## The lexer state and the token pump (`cfg_lexer_lex`) -/

/-- The process-global `configuration` as read by `cfg_lexer_lex`:
only the version fields are consulted. -/
structure Configuration where
  version : Int
  parsed_version : Int
deriving Repr, DecidableEq

/-- One primitive token as produced by the generated flex scanner
(`_cfg_lexer_lex`), which is not among the sources: the returned token id,
the `yylval` it fills in, the `yylloc` it reports (the scanner maintains
the current include frame's location, so delivering this token also
updates that location), and the token text / preceding text it records in
`self->token_text` / `self->token_pretext`. -/
structure RawToken where
  tok : Int
  lval : YYSTYPE
  lloc : YYLTYPE
  text : String
  pretext : String
deriving Repr, DecidableEq

/-- The lexer state (`CfgLexer`) restricted to the fields `cfg_lexer_lex`
reads or writes.  `include_lloc` stands for
`self->include_stack[self->include_depth].lloc`, the top include frame's
current location; `raw` abstracts the generated scanner over the include
stack as the stream of primitive tokens it will deliver (an empty stream
is end of input, where flex reports token 0).  The block-capture scanner
modes entered for the block-content / block-arg contexts configure how the
scanner forms its next token and are absorbed by this abstraction. -/
structure CfgLexer where
  token_blocks : List CfgTokenBlock
  context_stack : List CfgLexerContext
  include_lloc : YYLTYPE
  raw : List RawToken
  preprocess_suppress_tokens : Int
  preprocess_output : String
  token_text : String
  token_pretext : String
  generators : List CfgBlockGenerator
  config : Configuration
deriving Repr, DecidableEq

/-- `cfg_lexer_get_context_type`: type of the top context frame, 0 when
the stack is empty. -/
def cfg_lexer_get_context_type (s : CfgLexer) : Int :=
  match s.context_stack with
  | [] => 0
  | c :: _ => c.type

/-- `cfg_lexer_inject_token_block`: append a block to the pending list. -/
def cfg_lexer_inject_token_block (s : CfgLexer) (b : CfgTokenBlock) : CfgLexer :=
  { s with token_blocks := s.token_blocks ++ [b] }

/-- `cfg_lexer_unput_token`: wrap a single token value in a fresh block
and inject it.  Only the value is stored; no location travels with it. -/
def cfg_lexer_unput_token (s : CfgLexer) (lval : YYSTYPE) : CfgLexer :=
  cfg_lexer_inject_token_block s (cfg_token_block_add_token cfg_token_block_new lval)

/-- The pending-block drain loop at the head of `cfg_lexer_lex`: take the
next token of the first block that still has one, dropping (and freeing)
depleted blocks along the way. -/
def drainBlocks : List CfgTokenBlock → Option YYSTYPE × List CfgTokenBlock
  | [] => (none, [])
  | b :: rest =>
    match cfg_token_block_get_token b with
    | (some t, b2) => (some t, b2 :: rest)
    | (none, _) => drainBlocks rest

/-- What the front half of `cfg_lexer_lex` (steps before the `exit` label)
establishes: the token id `tok`, the token value and location out
parameters, whether the token was injected from a pending block, and the
updated state. -/
structure Fetched where
  lval : YYSTYPE
  lloc : YYLTYPE
  tok : Int
  injected : Bool
  state : CfgLexer
deriving Repr, DecidableEq

/-- Front half of `cfg_lexer_lex`: drain pending token blocks — an
injected token reports the current include frame's location and unwraps
`LL_TOKEN` values to their inner token id — otherwise run the raw scanner,
defaulting `yylval->type` to the returned token id when the scanner left
it 0, and append the pretext to the preprocessed echo output. -/
def fetchToken (s0 : CfgLexer) : Fetched :=
  match drainBlocks s0.token_blocks with
  | (some token, blocks) =>
    { lval := token,
      lloc := s0.include_lloc,
      tok := if token.type = LL_TOKEN then token.token else token.type,
      injected := true,
      state := { s0 with token_blocks := blocks } }
  | (none, blocks) =>
    let s1 := { s0 with token_blocks := blocks }
    match s1.raw with
    | [] =>
      { lval := ⟨0, 0, ""⟩, lloc := s1.include_lloc, tok := 0, injected := false,
        state := { s1 with token_text := "", token_pretext := "" } }
    | r :: rest =>
      { lval := if r.lval.type = 0 then { r.lval with type := r.tok } else r.lval,
        lloc := r.lloc,
        tok := r.tok,
        injected := false,
        state :=
          { s1 with
            raw := rest,
            include_lloc := r.lloc,
            token_text := r.text,
            token_pretext := r.pretext,
            preprocess_output := s1.preprocess_output ++ r.pretext } }

/-- The external collaborators of `cfg_lexer_lex`, re-entered or called
during post-processing: the downstream grammar parser for the pragma and
block-reference sub-grammars (`cfg_parser_parse`), the include machinery
(`cfg_lexer_include_file`) and the block generator callback
(`cfg_lexer_generate_block`).  Each returns its C truth value and the
lexer state it leaves behind. -/
structure GrammarOracle where
  pragmaParse : CfgLexer → Bool × CfgLexer
  blockRefParse : CfgLexer → Bool × CfgLexer
  includeFile : CfgLexer → String → Bool × CfgLexer
  generateBlock : CfgLexer → Int → String → Bool × CfgLexer

/-- Result of one `cfg_lexer_lex` call: the returned token id, the out
parameters, the final state, and — as instrumentation for the suppression
invariant — the minimum value the suppression counter took among the
states this call held (entry, after each increment/decrement, around each
collaborator call, and inside recursive calls). -/
structure LexResult where
  tok : Int
  lval : YYSTYPE
  lloc : YYLTYPE
  state : CfgLexer
  minSup : Int
deriving Repr, DecidableEq

/-- The version-defaulting tail and the echo step of `cfg_lexer_lex`,
reached when no interception applied: default the configuration version
from the parsed version, or — first non-pragma token with no version at
all — warn and default to the 2.1 compatibility value; then, for
non-injected tokens with suppression inactive, append the token text to
the preprocessed echo output. -/
def VERSION_VALUE_2_1 : Int := 513

def lexTail (injected : Bool) (s : CfgLexer) : CfgLexer :=
  let s1 :=
    if s.config.version = 0 ∧ s.config.parsed_version ≠ 0 then
      { s with config := { s.config with version := s.config.parsed_version } }
    else if s.config.version = 0 ∧ s.config.parsed_version = 0 ∧
        cfg_lexer_get_context_type s ≠ LL_CONTEXT_PRAGMA then
      { s with config := { s.config with version := VERSION_VALUE_2_1 } }
    else s
  if ¬injected ∧ s1.preprocess_suppress_tokens = 0 then
    { s1 with preprocess_output := s1.preprocess_output ++ s1.token_text }
  else s1

/-- `cfg_lexer_lex`, fuel-indexed (`none` = fuel exhausted; every `goto
relex` and every recursive C call consumes fuel).  The body follows the
source: fetch a token (pending blocks first, then the raw scanner), then
post-process — a pragma marker echoes "@" and re-enters the grammar for
the pragma sub-parse; an include keyword outside the pragma context brackets
with the suppression counter a recursive fetch of the path token (string or
identifier), a recursive fetch of the terminating semicolon and the file
push, erroring out on any failure; an identifier matching a registered
block generator brackets the block-reference sub-parse with the
suppression counter and then runs the generator, restarting on success;
otherwise version defaulting and the echo step apply and the token is
returned. -/
def cfg_lexer_lex (O : GrammarOracle) : Nat → CfgLexer → Option LexResult
  | 0, _ => none
  | fuel + 1, s0 =>
    let m0 := s0.preprocess_suppress_tokens
    let f := fetchToken s0
    let s := f.state
    if f.tok = LL_PRAGMA then
      let sp := { s with preprocess_output := s.preprocess_output ++ "@" }
      match O.pragmaParse sp with
      | (false, s2) =>
        some { tok := LL_ERROR, lval := f.lval, lloc := f.lloc, state := s2,
               minSup := min m0 s2.preprocess_suppress_tokens }
      | (true, s2) =>
        match cfg_lexer_lex O fuel s2 with
        | none => none
        | some r => some { r with minSup := min m0 r.minSup }
    else if f.tok = KW_INCLUDE ∧ cfg_lexer_get_context_type s ≠ LL_CONTEXT_PRAGMA then
      let sA := { s with preprocess_suppress_tokens := s.preprocess_suppress_tokens + 1 }
      match cfg_lexer_lex O fuel sA with
      | none => none
      | some r1 =>
        if r1.tok ≠ LL_STRING ∧ r1.tok ≠ LL_IDENTIFIER then
          let sB := { r1.state with preprocess_suppress_tokens :=
            r1.state.preprocess_suppress_tokens - 1 }
          some { tok := LL_ERROR, lval := r1.lval, lloc := r1.lloc, state := sB,
                 minSup := min (min m0 r1.minSup) sB.preprocess_suppress_tokens }
        else
          let includeName := r1.lval.cptr
          match cfg_lexer_lex O fuel r1.state with
          | none => none
          | some r2 =>
            if r2.tok ≠ TOK_SEMICOLON then
              let sB := { r2.state with preprocess_suppress_tokens :=
                r2.state.preprocess_suppress_tokens - 1 }
              some { tok := LL_ERROR, lval := r2.lval, lloc := r2.lloc, state := sB,
                     minSup := min (min (min m0 r1.minSup) r2.minSup)
                       sB.preprocess_suppress_tokens }
            else
              match O.includeFile r2.state includeName with
              | (false, sC) =>
                let sB := { sC with preprocess_suppress_tokens :=
                  sC.preprocess_suppress_tokens - 1 }
                some { tok := LL_ERROR, lval := r2.lval, lloc := r2.lloc, state := sB,
                       minSup := min (min (min m0 r1.minSup) r2.minSup)
                         sB.preprocess_suppress_tokens }
              | (true, sC) =>
                let sB := { sC with preprocess_suppress_tokens :=
                  sC.preprocess_suppress_tokens - 1 }
                match cfg_lexer_lex O fuel sB with
                | none => none
                | some r =>
                  some { r with
                         minSup := min (min (min m0 r1.minSup) r2.minSup) r.minSup }
    else if f.tok = LL_IDENTIFIER ∧
        (cfg_lexer_find_generator s.generators (cfg_lexer_get_context_type s)
          f.lval.cptr).isSome then
      let sA := { s with preprocess_suppress_tokens := s.preprocess_suppress_tokens + 1 }
      match O.blockRefParse sA with
      | (true, s2) =>
        let sB := { s2 with preprocess_suppress_tokens :=
          s2.preprocess_suppress_tokens - 1 }
        match O.generateBlock sB (cfg_lexer_get_context_type sB) f.lval.cptr with
        | (true, s3) =>
          match cfg_lexer_lex O fuel s3 with
          | none => none
          | some r =>
            some { r with minSup := min (min m0 sB.preprocess_suppress_tokens) r.minSup }
        | (false, s3) =>
          some { tok := LL_ERROR, lval := f.lval, lloc := f.lloc, state := s3,
                 minSup := min (min m0 sB.preprocess_suppress_tokens)
                   s3.preprocess_suppress_tokens }
      | (false, s2) =>
        let sB := { s2 with preprocess_suppress_tokens :=
          s2.preprocess_suppress_tokens - 1 }
        some { tok := LL_ERROR, lval := f.lval, lloc := f.lloc, state := sB,
               minSup := min m0 sB.preprocess_suppress_tokens }
    else
      some { tok := f.tok, lval := f.lval, lloc := f.lloc,
             state := lexTail f.injected s, minSup := m0 }

/-! ## Concrete instances used by counterexamples and witnesses -/

/-- Collaborators that fail every sub-parse and leave the state untouched;
the claims exercised on them never reach a collaborator. -/
def trivialOracle : GrammarOracle :=
  { pragmaParse := fun s => (false, s),
    blockRefParse := fun s => (false, s),
    includeFile := fun s _ => (false, s),
    generateBlock := fun s _ _ => (false, s) }

def locA : YYLTYPE := ⟨1, 1, 1, 5⟩

def locB : YYLTYPE := ⟨2, 1, 2, 5⟩

/-- A lexer about to scan two plain number tokens at two distinct source
locations. -/
def twoNumberState : CfgLexer :=
  { token_blocks := [], context_stack := [], include_lloc := ⟨1, 1, 1, 1⟩,
    raw := [⟨LL_NUMBER, ⟨0, 0, ""⟩, locA, "42", " "⟩,
            ⟨LL_NUMBER, ⟨0, 0, ""⟩, locB, "43", " "⟩],
    preprocess_suppress_tokens := 0, preprocess_output := "",
    token_text := "", token_pretext := "", generators := [],
    config := ⟨768, 768⟩ }

/-- A lexer in the pragma context about to scan the include keyword. -/
def pragmaIncludeState : CfgLexer :=
  { token_blocks := [], context_stack := [⟨LL_CONTEXT_PRAGMA, none, "pragma"⟩],
    include_lloc := ⟨1, 1, 1, 1⟩,
    raw := [⟨KW_INCLUDE, ⟨0, 0, ""⟩, ⟨1, 2, 1, 9⟩, "include", " "⟩],
    preprocess_suppress_tokens := 0, preprocess_output := "",
    token_text := "", token_pretext := "", generators := [],
    config := ⟨768, 768⟩ }

/-- A keyword table whose first entry for "foo" is version-gated (requires
3.4, packed 772) and whose second entry for the same spelling is available
at any version. -/
def gatedTable : List CfgLexerKeyword :=
  [⟨"foo", 100, 772, KwStatus.normal, ""⟩,
   ⟨"foo", 101, 0, KwStatus.normal, ""⟩]

def gatedStack : List CfgLexerContext :=
  [⟨LL_CONTEXT_ROOT, some gatedTable, "root"⟩]

/-- The same second entry alone, to show it matches by itself. -/
def ungatedStack : List CfgLexerContext :=
  [⟨LL_CONTEXT_ROOT, some [⟨"foo", 101, 0, KwStatus.normal, ""⟩], "root"⟩]

/-- The flush_lines keyword table of scenario S4. -/
def flushStack : List CfgLexerContext :=
  [⟨LL_CONTEXT_ROOT, some [⟨"flush_lines", 200, 0, KwStatus.normal, ""⟩], "root"⟩]

/-- Scope maps of scenario S2. -/
def s2globals : CfgArgs := ⟨[("host_name", "h1")]⟩

def s2defs : CfgArgs := ⟨[("port", "514")]⟩

def s2args : CfgArgs := ⟨[("port", "6514")]⟩

/-- An environment that also knows both names, to witness that it is only
consulted after all three argument scopes. -/
def s2env : String → Option String :=
  fun n => if n = "host_name" then some "envhost"
    else if n = "port" then some "envport" else none

/-- The S2 input text dest(`host_name`:`port`), assembled around explicit
back-tick characters. -/
def s2input : String :=
  "dest(" ++ String.mk [bq] ++ "host_name" ++ String.mk [bq] ++ ":" ++
    String.mk [bq] ++ "port" ++ String.mk [bq] ++ ")"

/-- Block and argument map exercising `__VARARGS__` filling: the caller
supplied its own (normalized-key) `__VARARGS__` entry, which is not among
the declared arguments. -/
def varargsDefs : CfgArgs := ⟨[("path", "/var/log/x")]⟩

def varargsArgs : CfgArgs :=
  ⟨[("port", "6514"), ("__varargs__", "x(1) "), ("path", "/tmp/y")]⟩

/-! ## Helper lemmas -/

/-- Scanning a table whose prefix neither stops nor matches reaches the
first matching entry; when that entry is version-gated the outcome is
`gated`, independently of everything after it. -/
theorem scanTable_gated (ver : Int) (token : String)
    (pre post : List CfgLexerKeyword) (e : CfgLexerKeyword)
    (hpre : ∀ e2 ∈ pre, e2.kw_name ≠ CFG_KEYWORD_STOP ∧
      kwMatch token.toList e2.kw_name.toList = false)
    (hstop : e.kw_name ≠ CFG_KEYWORD_STOP)
    (hmatch : kwMatch token.toList e.kw_name.toList = true)
    (hgate : cfg_check_current_config_version ver e.kw_req_version = false) :
    scanTable ver token (pre ++ e :: post) =
      TableOutcome.gated (KwWarning.reservedWord e.kw_name e.kw_req_version) := by
  induction pre with
  | nil =>
    simp only [List.nil_append, scanTable]
    rw [if_neg hstop, if_pos hmatch, if_neg (by simp [hgate])]
  | cons e2 pres ih =>
    have h2 := hpre e2 (by simp)
    have h2d : kwMatch token.data e2.kw_name.data = false := h2.2
    simp only [List.cons_append, scanTable]
    rw [if_neg h2.1, if_neg (by simp [h2.2, h2d])]
    exact ih (fun e3 h3 => hpre e3 (by simp [h3]))

/-- A hit of `cfg_lexer_find_generator` is exactly an entry whose name
matches and whose context is the wildcard 0 or the requested one. -/
theorem find_generator_isSome_iff (gens : List CfgBlockGenerator)
    (context : Int) (name : String) :
    (cfg_lexer_find_generator gens context name).isSome = true ↔
      ∃ g ∈ gens, (g.context = 0 ∨ g.context = context) ∧ g.name = name := by
  unfold cfg_lexer_find_generator
  rw [List.find?_isSome]
  constructor
  · rintro ⟨g, hg, hp⟩
    refine ⟨g, hg, ?_⟩
    simpa using hp
  · rintro ⟨g, hg, hp⟩
    refine ⟨g, hg, ?_⟩
    simpa using hp

/-! ## Claim C1 — version-gated keyword matches -/

/-- Claim C1, as stated, is false: with a single keyword table whose first
entry for "foo" is version-gated and whose second entry for the same
spelling is not, the claim predicts the second entry still matches (token
101), but the code abandons the whole table after warning and — no outer
frame matching — returns the lexeme as a plain identifier. -/
theorem C1_next_entry_counterexample :
    (cfg_lexer_lookup_keyword 770 "foo" gatedStack).result = LL_IDENTIFIER ∧
    (cfg_lexer_lookup_keyword 770 "foo" gatedStack).result ≠ 101 ∧
    (cfg_lexer_lookup_keyword 770 "foo" gatedStack).warns =
      [KwWarning.reservedWord "foo" 772] ∧
    (cfg_lexer_lookup_keyword 770 "foo" ungatedStack).result = 101 := by
  refine ⟨by decide, by decide, by decide, by decide⟩

/-- Claim C1 amended: when keyword lookup reaches a spelling match whose
required version exceeds the active version, it emits the reserved-word
warning and abandons the current keyword table entirely — later entries of
that same table (here arbitrary `post`) are never consulted — continuing
resolution with the remaining outer context frames; with no outer match
the lexeme ends up a plain identifier. -/
theorem C1_gated_match_abandons_table (ver : Int) (token : String)
    (pre post : List CfgLexerKeyword) (e : CfgLexerKeyword)
    (rest : List CfgLexerContext) (ty : Int) (d : String)
    (hpre : ∀ e2 ∈ pre, e2.kw_name ≠ CFG_KEYWORD_STOP ∧
      kwMatch token.toList e2.kw_name.toList = false)
    (hstop : e.kw_name ≠ CFG_KEYWORD_STOP)
    (hmatch : kwMatch token.toList e.kw_name.toList = true)
    (hgate : cfg_check_current_config_version ver e.kw_req_version = false) :
    cfg_lexer_lookup_keyword ver token
        (CfgLexerContext.mk ty (some (pre ++ e :: post)) d :: rest) =
      { cfg_lexer_lookup_keyword ver token rest with
        warns := KwWarning.reservedWord e.kw_name e.kw_req_version ::
          (cfg_lexer_lookup_keyword ver token rest).warns } := by
  simp only [cfg_lexer_lookup_keyword,
    scanTable_gated ver token pre post e hpre hstop hmatch hgate]

/-- Witness for the amended C1 theorem on the concrete gated table. -/
theorem C1_gated_match_abandons_table_witness :
    cfg_lexer_lookup_keyword 770 "foo"
        (CfgLexerContext.mk LL_CONTEXT_ROOT
          (some ([] ++ (⟨"foo", 100, 772, KwStatus.normal, ""⟩ : CfgLexerKeyword) ::
            [⟨"foo", 101, 0, KwStatus.normal, ""⟩])) "root" :: []) =
      { cfg_lexer_lookup_keyword 770 "foo" [] with
        warns := KwWarning.reservedWord "foo" 772 ::
          (cfg_lexer_lookup_keyword 770 "foo" []).warns } :=
  C1_gated_match_abandons_table 770 "foo" []
    [⟨"foo", 101, 0, KwStatus.normal, ""⟩] ⟨"foo", 100, 772, KwStatus.normal, ""⟩
    [] LL_CONTEXT_ROOT "root" (by simp) (by decide) (by decide) (by decide)

/-! ## Claim C4 — duplicate block-generator registration -/

/-- Claim C4, as stated ("rejected if and only if an entry with the same
(context, name) pair already exists"), is false: an existing wildcard
entry (context 0) with the same name rejects a registration for context 5
even though no entry with the pair (5, "foo") exists. -/
theorem C4_duplicate_registration_counterexample :
    (cfg_lexer_register_block_generator [⟨0, "foo"⟩] 5 "foo").generators =
      [⟨0, "foo"⟩] ∧
    (cfg_lexer_register_block_generator [⟨0, "foo"⟩] 5 "foo").data_free_calls = 1 ∧
    (cfg_lexer_register_block_generator [⟨0, "foo"⟩] 5 "foo").debug_reported = true ∧
    ¬ ∃ g ∈ ([⟨0, "foo"⟩] : List CfgBlockGenerator),
        g.context = 5 ∧ g.name = "foo" := by
  refine ⟨by decide, by decide, by decide, by decide⟩

/-- Claim C4 amended: registration is rejected — generator list unchanged,
debug report emitted, the incoming data released via its destructor
exactly once — if and only if an entry matches under the find-generator
rule: same name and a context that is the wildcard 0 or equal to the
incoming context; otherwise the generator is appended and the data is
never released. -/
theorem C4_registration_rejection (gens : List CfgBlockGenerator)
    (context : Int) (name : String) :
    ((∃ g ∈ gens, (g.context = 0 ∨ g.context = context) ∧ g.name = name) →
      cfg_lexer_register_block_generator gens context name =
        ⟨gens, 1, true⟩) ∧
    ((¬ ∃ g ∈ gens, (g.context = 0 ∨ g.context = context) ∧ g.name = name) →
      cfg_lexer_register_block_generator gens context name =
        ⟨gens ++ [⟨context, name⟩], 0, false⟩) := by
  constructor
  · intro hex
    have hs : (cfg_lexer_find_generator gens context name).isSome = true :=
      (find_generator_isSome_iff gens context name).mpr hex
    unfold cfg_lexer_register_block_generator
    cases hfind : cfg_lexer_find_generator gens context name with
    | none => rw [hfind] at hs; simp at hs
    | some g => rfl
  · intro hex
    have hs : ¬ (cfg_lexer_find_generator gens context name).isSome = true :=
      fun h => hex ((find_generator_isSome_iff gens context name).mp h)
    unfold cfg_lexer_register_block_generator
    cases hfind : cfg_lexer_find_generator gens context name with
    | none => rfl
    | some g => rw [hfind] at hs; simp at hs

/-- Witness for the amended C4 theorem: both directions at concrete
inputs — an accepted registration on an empty registry and a rejected one
against a wildcard entry. -/
theorem C4_registration_rejection_witness :
    cfg_lexer_register_block_generator [] 3 "blk" =
      ⟨[⟨3, "blk"⟩], 0, false⟩ ∧
    cfg_lexer_register_block_generator [⟨0, "foo"⟩] 5 "foo" =
      ⟨[⟨0, "foo"⟩], 1, true⟩ :=
  ⟨(C4_registration_rejection [] 3 "blk").2 (by decide),
   (C4_registration_rejection [⟨0, "foo"⟩] 5 "foo").1 (by decide)⟩

/-! ## Claim C7 — context name round trip -/

/-- Claim C7, as stated, is false at the block-arg context: the context
name array of the source has no entry at its index, so the name lookup
returns NULL and the round trip cannot produce the type back. -/
theorem C7_block_arg_counterexample :
    cfg_lexer_lookup_context_name_by_type LL_CONTEXT_BLOCK_ARG = none ∧
    (cfg_lexer_lookup_context_name_by_type LL_CONTEXT_BLOCK_ARG).map
      cfg_lexer_lookup_context_type_by_name ≠ some LL_CONTEXT_BLOCK_ARG := by
  refine ⟨by decide, by decide⟩

/-- Claim C7 amended: the round trip
name-lookup-after-type-lookup returns the type for every valid context
type except block-arg, which has no name in the source's context array. -/
theorem C7_context_round_trip (t : Int) (h1 : 1 ≤ t) (h2 : t ≤ 18)
    (h3 : t ≠ LL_CONTEXT_BLOCK_ARG) :
    (cfg_lexer_lookup_context_name_by_type t).map
      cfg_lexer_lookup_context_type_by_name = some t := by
  unfold LL_CONTEXT_BLOCK_ARG at h3
  interval_cases t
  all_goals first | (exact absurd rfl h3) | decide

/-- Witness for the amended C7 theorem at the source context. -/
theorem C7_context_round_trip_witness :
    (cfg_lexer_lookup_context_name_by_type 3).map
      cfg_lexer_lookup_context_type_by_name = some 3 :=
  C7_context_round_trip 3 (by decide) (by decide) (by decide)

/-! ## Claim C8 — keyword comparison discipline -/

/-- Claim C8: a successful keyword match forces, position by position,
either equal characters (necessarily not a hyphen) or a candidate hyphen
against an entry underscore — `List.Forall₂` also forces equal lengths —
and concretely flush-lines resolves to the keyword token while
flush.lines stays an identifier. -/
theorem C8_keyword_comparison :
    (∀ t k, kwMatch t k = true →
      List.Forall₂ (fun a b => (a = b ∧ a ≠ '-') ∨ (a = '-' ∧ b = '_')) t k) ∧
    (cfg_lexer_lookup_keyword 770 "flush-lines" flushStack).result = 200 ∧
    (cfg_lexer_lookup_keyword 770 "flush.lines" flushStack).result =
      LL_IDENTIFIER := by
  refine ⟨?_, by decide, by decide⟩
  intro t
  induction t with
  | nil =>
    intro k h
    cases k with
    | nil => exact List.Forall₂.nil
    | cons d ks => simp [kwMatch] at h
  | cons c ts ih =>
    intro k h
    cases k with
    | nil => simp [kwMatch] at h
    | cons d ks =>
      rw [kwMatch] at h
      by_cases h1 : c = '-' ∨ c = '_'
      · rw [if_pos h1] at h
        by_cases h2 : d = '_'
        · rw [if_pos h2] at h
          refine List.Forall₂.cons ?_ (ih ks h)
          rcases h1 with h1 | h1
          · exact Or.inr ⟨h1, h2⟩
          · subst h1; subst h2; exact Or.inl ⟨rfl, by decide⟩
        · rw [if_neg h2] at h; simp at h
      · rw [if_neg h1] at h
        by_cases h2 : c = d
        · rw [if_pos h2] at h
          exact List.Forall₂.cons
            (Or.inl ⟨h2, fun hc => h1 (Or.inl hc)⟩) (ih ks h)
        · rw [if_neg h2] at h; simp at h

/-- Witness for C8 on the concrete hyphen/underscore pair. -/
theorem C8_keyword_comparison_witness :
    List.Forall₂ (fun a b => (a = b ∧ a ≠ '-') ∨ (a = '-' ∧ b = '_'))
      "flush-lines".toList "flush_lines".toList :=
  C8_keyword_comparison.1 "flush-lines".toList "flush_lines".toList (by decide)

/-! ## Lexer pump helper lemmas -/

/-- The front half of `cfg_lexer_lex` never touches the suppression
counter, the context stack, the generator registry or the configuration. -/
theorem fetchToken_state_fields (s : CfgLexer) :
    (fetchToken s).state.preprocess_suppress_tokens =
        s.preprocess_suppress_tokens ∧
    (fetchToken s).state.context_stack = s.context_stack ∧
    (fetchToken s).state.generators = s.generators ∧
    (fetchToken s).state.config = s.config := by
  unfold fetchToken
  cases hd : drainBlocks s.token_blocks with
  | mk o blocks =>
    cases o with
    | some t => simp
    | none =>
      cases hr : s.raw with
      | nil => simp
      | cons r rest => simp [hr]

/-- The version-defaulting and echo tail touches only the configuration
and the echo buffer. -/
theorem lexTail_fields (injected : Bool) (s : CfgLexer) :
    (lexTail injected s).preprocess_suppress_tokens =
        s.preprocess_suppress_tokens ∧
    (lexTail injected s).raw = s.raw ∧
    (lexTail injected s).context_stack = s.context_stack ∧
    (lexTail injected s).token_blocks = s.token_blocks ∧
    (lexTail injected s).include_lloc = s.include_lloc := by
  unfold lexTail
  simp only []
  split_ifs <;> simp_all

/-- The front half of `cfg_lexer_lex` on a state with no pending blocks
and a primitive token ready: the raw scanner delivers it, advancing the
frame location and recording its texts. -/
theorem fetchToken_raw (s : CfgLexer) (rt : RawToken) (rest : List RawToken)
    (hq : s.token_blocks = []) (hraw : s.raw = rt :: rest) :
    fetchToken s =
      { lval := if rt.lval.type = 0 then { rt.lval with type := rt.tok }
          else rt.lval,
        lloc := rt.lloc, tok := rt.tok, injected := false,
        state :=
          { s with
            token_blocks := [],
            raw := rest,
            include_lloc := rt.lloc,
            token_text := rt.text,
            token_pretext := rt.pretext,
            preprocess_output := s.preprocess_output ++ rt.pretext } } := by
  unfold fetchToken
  rw [hq]
  simp [drainBlocks, hraw]

/-- The front half of `cfg_lexer_lex` right after an unput on a state with
no other pending blocks: the pushed-back token value is re-delivered as an
injected token, and the location reported with it is the current include
frame's location. -/
theorem fetchToken_unput (s : CfgLexer) (lval : YYSTYPE)
    (hq : s.token_blocks = []) :
    fetchToken (cfg_lexer_unput_token s lval) =
      { lval := lval, lloc := s.include_lloc,
        tok := if lval.type = LL_TOKEN then lval.token else lval.type,
        injected := true,
        state := { s with token_blocks := [⟨1, [lval]⟩] } } := by
  unfold fetchToken cfg_lexer_unput_token cfg_lexer_inject_token_block
    cfg_token_block_add_token cfg_token_block_new
  rw [hq]
  simp [drainBlocks, cfg_token_block_get_token]

/-! ## Claim C2 — locations of re-injected tokens -/

/-- Claim C2, as stated, is false: scan a token at location locA, scan the
next at locB, push the first token back, and re-fetch — the re-delivered
token carries the same value but its reported location is the frame's
current location locB, not the original locA (the token value does not
store a location at all). -/
theorem C2_unput_location_counterexample :
    ((cfg_lexer_lex trivialOracle 3 twoNumberState).bind fun r1 =>
      (cfg_lexer_lex trivialOracle 3 r1.state).bind fun r2 =>
      (cfg_lexer_lex trivialOracle 3
          (cfg_lexer_unput_token r2.state r1.lval)).map fun r3 =>
        (r3.lval == r1.lval, r3.lloc == r1.lloc, r1.lloc, r3.lloc)) =
      some (true, false, locA, locB) := by
  decide

/-- Claim C2 amended: a token re-delivered from a push-back reports the
include frame's location as it stands at re-delivery time — it preserves
the original location only when the frame location has not moved in
between, since `cfg_lexer_unput_token` stores no location. -/
theorem C2_reinjected_token_location (O : GrammarOracle) (fuel : Nat)
    (s : CfgLexer) (lval : YYSTYPE) (r : LexResult)
    (hq : s.token_blocks = [])
    (h1 : (if lval.type = LL_TOKEN then lval.token else lval.type) ≠ LL_PRAGMA)
    (h2 : ¬((if lval.type = LL_TOKEN then lval.token else lval.type) =
        KW_INCLUDE ∧ cfg_lexer_get_context_type s ≠ LL_CONTEXT_PRAGMA))
    (h3 : ¬((if lval.type = LL_TOKEN then lval.token else lval.type) =
        LL_IDENTIFIER ∧
        (cfg_lexer_find_generator s.generators (cfg_lexer_get_context_type s)
          lval.cptr).isSome = true))
    (h : cfg_lexer_lex O (fuel + 1) (cfg_lexer_unput_token s lval) = some r) :
    r.lloc = s.include_lloc ∧ r.lval = lval ∧
    r.tok = (if lval.type = LL_TOKEN then lval.token else lval.type) := by
  simp only [cfg_lexer_lex] at h
  rw [fetchToken_unput s lval hq] at h
  generalize hgl : (if lval.type = LL_TOKEN then lval.token else lval.type) = tk
    at h h1 h2 h3 ⊢
  split at h
  · next hcond => exact absurd hcond h1
  · split at h
    · next hcond => exact absurd hcond h2
    · split at h
      · next hcond => exact absurd hcond h3
      · simp only [Option.some.injEq] at h
        subst h
        exact ⟨rfl, rfl, rfl⟩

/-- Witness for the amended C2 theorem: the re-injected number token on
the concrete two-token state reports the frame location. -/
theorem C2_reinjected_token_location_witness :
    (cfg_lexer_lex trivialOracle 1
        (cfg_lexer_unput_token twoNumberState ⟨LL_NUMBER, 0, ""⟩)).map
      (fun r => (r.lloc, r.lval)) =
    some (twoNumberState.include_lloc, ⟨LL_NUMBER, 0, ""⟩) := by
  cases hr : cfg_lexer_lex trivialOracle 1
      (cfg_lexer_unput_token twoNumberState ⟨LL_NUMBER, 0, ""⟩) with
  | none => exact absurd hr (by decide)
  | some r =>
    obtain ⟨h1, h2, h3⟩ := C2_reinjected_token_location trivialOracle 0
      twoNumberState ⟨LL_NUMBER, 0, ""⟩ r rfl (by decide) (by decide)
      (by decide) hr
    simp [h1, h2]

/-! ## Claim C3 — include keyword inside the pragma context -/

/-- Claim C3, as stated, is false: with the context stack topped by the
pragma context and the scanner delivering the include keyword,
`cfg_lexer_lex` returns the KW_INCLUDE token itself, not the LL_ERROR
sentinel. -/
theorem C3_include_in_pragma_counterexample :
    (cfg_lexer_lex trivialOracle 2 pragmaIncludeState).map (fun r => r.tok) =
      some KW_INCLUDE ∧ KW_INCLUDE ≠ LL_ERROR := by
  refine ⟨by decide, by decide⟩

/-- Claim C3 amended: when the include keyword arrives while the current
context is pragma, `cfg_lexer_lex` skips include processing — the
suppression counter is untouched and only the one primitive token is
consumed — and passes the KW_INCLUDE token through to the caller (the
pragma grammar handles it). -/
theorem C3_include_in_pragma_passthrough (O : GrammarOracle) (fuel : Nat)
    (s : CfgLexer) (rt : RawToken) (rest : List RawToken) (r : LexResult)
    (hq : s.token_blocks = [])
    (hctx : cfg_lexer_get_context_type s = LL_CONTEXT_PRAGMA)
    (hraw : s.raw = rt :: rest)
    (htok : rt.tok = KW_INCLUDE)
    (h : cfg_lexer_lex O (fuel + 1) s = some r) :
    r.tok = KW_INCLUDE ∧
    r.state.preprocess_suppress_tokens = s.preprocess_suppress_tokens ∧
    r.state.raw = rest := by
  simp only [cfg_lexer_lex] at h
  rw [fetchToken_raw s rt rest hq hraw] at h
  generalize (if rt.lval.type = 0 then { rt.lval with type := rt.tok }
    else rt.lval) = lv at h
  split at h
  · next hcond =>
    rw [htok] at hcond
    exact absurd (show KW_INCLUDE = LL_PRAGMA from hcond) (by decide)
  · split at h
    · next hcond => exact absurd hctx hcond.2
    · split at h
      · next hcond =>
        obtain ⟨hc1, _⟩ := hcond
        rw [htok] at hc1
        exact absurd (show KW_INCLUDE = LL_IDENTIFIER from hc1) (by decide)
      · simp only [Option.some.injEq] at h
        subst h
        refine ⟨htok, ?_, ?_⟩
        · exact (lexTail_fields _ _).1
        · exact (lexTail_fields _ _).2.1

/-- Witness for the amended C3 theorem on the concrete pragma-context
state. -/
theorem C3_include_in_pragma_passthrough_witness :
    (cfg_lexer_lex trivialOracle 1 pragmaIncludeState).map
        (fun r => (r.tok, r.state.preprocess_suppress_tokens, r.state.raw)) =
      some (KW_INCLUDE, 0, ([] : List RawToken)) := by
  cases hr : cfg_lexer_lex trivialOracle 1 pragmaIncludeState with
  | none => exact absurd hr (by decide)
  | some r =>
    obtain ⟨h1, h2, h3⟩ := C3_include_in_pragma_passthrough trivialOracle 0
      pragmaIncludeState ⟨KW_INCLUDE, ⟨0, 0, ""⟩, ⟨1, 2, 1, 9⟩, "include", " "⟩
      [] r rfl rfl rfl rfl hr
    simp [h1, h2, h3]
    rfl

/-! ## Claim C5 — the suppression counter invariant -/

/-- Core invariant of the token pump: provided every collaborator leaves
the suppression counter as it found it (the claim's assumption that the
recursive grammar sub-parses are balanced), every terminating
`cfg_lexer_lex` call returns the counter to its entry value on every exit
path, and the minimum counter value attained during the call is exactly
the entry value — the counter never dips below it. -/
theorem lex_suppress_spec (O : GrammarOracle)
    (hp : ∀ s, (O.pragmaParse s).2.preprocess_suppress_tokens =
      s.preprocess_suppress_tokens)
    (hb : ∀ s, (O.blockRefParse s).2.preprocess_suppress_tokens =
      s.preprocess_suppress_tokens)
    (hi : ∀ s f, (O.includeFile s f).2.preprocess_suppress_tokens =
      s.preprocess_suppress_tokens)
    (hg : ∀ s c n, (O.generateBlock s c n).2.preprocess_suppress_tokens =
      s.preprocess_suppress_tokens) :
    ∀ (fuel : Nat) (s : CfgLexer) (r : LexResult),
      cfg_lexer_lex O fuel s = some r →
      r.state.preprocess_suppress_tokens = s.preprocess_suppress_tokens ∧
      r.minSup = s.preprocess_suppress_tokens := by
  intro fuel
  induction fuel with
  | zero =>
    intro s r h
    simp [cfg_lexer_lex] at h
  | succ fuel ih =>
    intro s r h
    have hfs : (fetchToken s).state.preprocess_suppress_tokens =
        s.preprocess_suppress_tokens := (fetchToken_state_fields s).1
    simp only [cfg_lexer_lex] at h
    split at h
    · -- pragma interception
      split at h
      next s2 heq =>
        simp only [Option.some.injEq] at h
        subst h
        have h2 := hp { (fetchToken s).state with
          preprocess_output := (fetchToken s).state.preprocess_output ++ "@" }
        rw [heq] at h2
        simp only at h2
        refine ⟨?_, ?_⟩ <;> simp_all
      next s2 heq =>
        split at h
        · exact absurd h (by simp)
        next r2 heq2 =>
          simp only [Option.some.injEq] at h
          subst h
          have h2 := hp { (fetchToken s).state with
            preprocess_output := (fetchToken s).state.preprocess_output ++ "@" }
          rw [heq] at h2
          simp only at h2
          obtain ⟨ha, hm⟩ := ih _ _ heq2
          refine ⟨?_, ?_⟩ <;> simp_all
    · -- include interception
      split at h
      · split at h
        · exact absurd h (by simp)
        next r1 heq1 =>
          obtain ⟨ha1, hm1⟩ := ih _ _ heq1
          simp only at ha1 hm1
          split at h
          · -- not a string/identifier path token
            simp only [Option.some.injEq] at h
            subst h
            refine ⟨?_, ?_⟩ <;> simp_all
          · split at h
            · exact absurd h (by simp)
            next r2 heq2 =>
              obtain ⟨ha2, hm2⟩ := ih _ _ heq2
              split at h
              · -- missing semicolon
                simp only [Option.some.injEq] at h
                subst h
                refine ⟨?_, ?_⟩ <;> simp_all
              · split at h
                next sC heqI =>
                  -- include file failed
                  simp only [Option.some.injEq] at h
                  subst h
                  have h3 := hi r2.state r1.lval.cptr
                  rw [heqI] at h3
                  simp only at h3
                  refine ⟨?_, ?_⟩ <;> simp_all
                next sC heqI =>
                  -- include file pushed, relex
                  have h3 := hi r2.state r1.lval.cptr
                  rw [heqI] at h3
                  simp only at h3
                  split at h
                  · exact absurd h (by simp)
                  next r3 heq3 =>
                    obtain ⟨ha3, hm3⟩ := ih _ _ heq3
                    simp only at ha3 hm3
                    simp only [Option.some.injEq] at h
                    subst h
                    refine ⟨?_, ?_⟩ <;> simp_all
      · -- block generator interception
        split at h
        · split at h
          next s2 heqB =>
            -- block-ref parse succeeded
            have h2 := hb { (fetchToken s).state with
              preprocess_suppress_tokens :=
                (fetchToken s).state.preprocess_suppress_tokens + 1 }
            rw [heqB] at h2
            simp only at h2
            split at h
            next s3 heqG =>
              -- generator succeeded, relex
              have h3 := hg { s2 with preprocess_suppress_tokens :=
                  s2.preprocess_suppress_tokens - 1 }
                (cfg_lexer_get_context_type { s2 with preprocess_suppress_tokens :=
                  s2.preprocess_suppress_tokens - 1 }) (fetchToken s).lval.cptr
              rw [heqG] at h3
              simp only at h3
              split at h
              · exact absurd h (by simp)
              next r3 heq3 =>
                obtain ⟨ha3, hm3⟩ := ih _ _ heq3
                simp only [Option.some.injEq] at h
                subst h
                refine ⟨?_, ?_⟩ <;> simp_all
            next s3 heqG =>
              -- generator failed
              have h3 := hg { s2 with preprocess_suppress_tokens :=
                  s2.preprocess_suppress_tokens - 1 }
                (cfg_lexer_get_context_type { s2 with preprocess_suppress_tokens :=
                  s2.preprocess_suppress_tokens - 1 }) (fetchToken s).lval.cptr
              rw [heqG] at h3
              simp only at h3
              simp only [Option.some.injEq] at h
              subst h
              refine ⟨?_, ?_⟩ <;> simp_all
          next s2 heqB =>
            -- block-ref parse failed
            have h2 := hb { (fetchToken s).state with
              preprocess_suppress_tokens :=
                (fetchToken s).state.preprocess_suppress_tokens + 1 }
            rw [heqB] at h2
            simp only at h2
            simp only [Option.some.injEq] at h
            subst h
            refine ⟨?_, ?_⟩ <;> simp_all
        · -- plain fall-through
          simp only [Option.some.injEq] at h
          subst h
          have ht := (lexTail_fields (fetchToken s).injected
            (fetchToken s).state).1
          refine ⟨?_, ?_⟩ <;> simp_all

/-- Claim C5: under the claim's assumption that the recursive grammar
sub-parses (and the other collaborators) leave the counter balanced, the
suppression counter returns to its entry value on every exit path of
`cfg_lexer_lex` — the success paths, the error-sentinel paths after a bad
include path token, a missing semicolon, a failed file push, a failed
block-reference parse or a failed block expansion — and it never becomes
negative: the minimum value attained during the call is the entry value,
hence nonnegative whenever the counter starts nonnegative. -/
theorem C5_suppress_counter_invariant (O : GrammarOracle)
    (hp : ∀ s, (O.pragmaParse s).2.preprocess_suppress_tokens =
      s.preprocess_suppress_tokens)
    (hb : ∀ s, (O.blockRefParse s).2.preprocess_suppress_tokens =
      s.preprocess_suppress_tokens)
    (hi : ∀ s f, (O.includeFile s f).2.preprocess_suppress_tokens =
      s.preprocess_suppress_tokens)
    (hg : ∀ s c n, (O.generateBlock s c n).2.preprocess_suppress_tokens =
      s.preprocess_suppress_tokens)
    (fuel : Nat) (s : CfgLexer) (r : LexResult)
    (h : cfg_lexer_lex O fuel s = some r) :
    r.state.preprocess_suppress_tokens = s.preprocess_suppress_tokens ∧
    r.minSup = s.preprocess_suppress_tokens ∧
    (0 ≤ s.preprocess_suppress_tokens → 0 ≤ r.minSup) := by
  obtain ⟨h1, h2⟩ := lex_suppress_spec O hp hb hi hg fuel s r h
  exact ⟨h1, h2, fun h0 => h2 ▸ h0⟩

/-- Witness for C5: a concrete run on the two-token state with the
trivial collaborators. -/
theorem C5_suppress_counter_invariant_witness :
    (cfg_lexer_lex trivialOracle 2 twoNumberState).map
        (fun r => (r.state.preprocess_suppress_tokens, r.minSup)) =
      some (0, 0) := by
  cases hr : cfg_lexer_lex trivialOracle 2 twoNumberState with
  | none => exact absurd hr (by decide)
  | some r =>
    obtain ⟨h1, h2, h3⟩ := C5_suppress_counter_invariant trivialOracle
      (fun _ => rfl) (fun _ => rfl) (fun _ _ => rfl) (fun _ _ _ => rfl)
      2 twoNumberState r hr
    simp [h1, h2]
    rfl

/-! ## Claim C6 — substitution fails exactly on unterminated references -/

/-- Unfolding equation of `substAux` at the end of the buffer. -/
theorem substAux_nil (args defs globals : Option CfgArgs)
    (env : String → Option String) (b : Bool) (refAcc result : List Char) :
    substAux args defs globals env [] b refAcc result =
      if b then none else some result := rfl

/-- Unfolding equation of `substAux` outside a reference. -/
theorem substAux_cons_false (args defs globals : Option CfgArgs)
    (env : String → Option String) (c : Char) (rest refAcc result : List Char) :
    substAux args defs globals env (c :: rest) false refAcc result =
      if c = bq then substAux args defs globals env rest true [] result
      else substAux args defs globals env rest false refAcc (result ++ [c]) := rfl

/-- Unfolding equation of `substAux` inside a reference. -/
theorem substAux_cons_true (args defs globals : Option CfgArgs)
    (env : String → Option String) (c : Char) (rest refAcc result : List Char) :
    substAux args defs globals env (c :: rest) true refAcc result =
      if c = bq then
        (if refAcc = [] then
          substAux args defs globals env rest false [] (result ++ [bq])
        else
          substAux args defs globals env rest false []
            (result ++ ((substLookup args defs globals env
              (String.mk refAcc)).getD "").toList))
      else substAux args defs globals env rest true (refAcc ++ [c]) result := rfl

/-- The substitution scan returns NULL exactly when the back-tick mode
flag is still set at the end of the buffer, i.e. when the number of
back-ticks consumed (plus one for an already-open reference) is odd. -/
theorem substAux_eq_none_iff (args defs globals : Option CfgArgs)
    (env : String → Option String) :
    ∀ (l : List Char) (b : Bool) (refAcc result : List Char),
      (substAux args defs globals env l b refAcc result = none ↔
        Odd ((l.filter (fun c => c = bq)).length + (if b then 1 else 0))) := by
  intro l
  induction l with
  | nil =>
    intro b refAcc result
    cases b <;> simp [substAux_nil, Nat.odd_iff]
  | cons c rest ih =>
    intro b refAcc result
    by_cases hc : c = bq
    · subst hc
      cases b with
      | false =>
        rw [substAux_cons_false, if_pos rfl, ih true [] result]
        simp [List.filter_cons, Nat.odd_iff]
      | true =>
        by_cases hr : refAcc = []
        · rw [substAux_cons_true, if_pos rfl, if_pos hr,
            ih false [] (result ++ [bq])]
          simp [List.filter_cons, Nat.odd_iff]
          omega
        · rw [substAux_cons_true, if_pos rfl, if_neg hr, ih false [] _]
          simp [List.filter_cons, Nat.odd_iff]
          omega
    · cases b with
      | false =>
        rw [substAux_cons_false, if_neg hc, ih false refAcc (result ++ [c])]
        simp [List.filter_cons, hc]
      | true =>
        rw [substAux_cons_true, if_neg hc, ih true (refAcc ++ [c]) result]
        simp [List.filter_cons, hc]

/-- Claim C6: `cfg_lexer_subst_args` reports failure exactly when the
input holds an unterminated back-tick reference — an odd number of
back-tick characters, so that one opener has no closer before the end of
the buffer; in particular a closed reference that resolves nowhere never
fails. -/
theorem C6_subst_failure_iff_unterminated (globals defs args : Option CfgArgs)
    (env : String → Option String) (cptr : String) :
    (cfg_lexer_subst_args globals defs args env cptr = none ↔
      Odd ((cptr.toList.filter (fun c => c = bq)).length)) := by
  unfold cfg_lexer_subst_args
  rw [Option.map_eq_none']
  simpa using substAux_eq_none_iff args defs globals env cptr.toList false [] []

/-- Witness for C6: the unterminated input a-backtick-b fails, while its
closed variant with an unresolvable reference succeeds with the reference
replaced by the empty string. -/
theorem C6_subst_failure_iff_unterminated_witness :
    cfg_lexer_subst_args none none none (fun _ => none)
        (String.mk [Char.ofNat 97, bq, Char.ofNat 98]) = none ∧
    ¬ cfg_lexer_subst_args none none none (fun _ => none)
        (String.mk [Char.ofNat 97, bq, Char.ofNat 98, bq]) = none :=
  ⟨(C6_subst_failure_iff_unterminated none none none (fun _ => none) _).mpr
      (by decide),
   fun h =>
    absurd ((C6_subst_failure_iff_unterminated none none none
      (fun _ => none) _).mp h) (by decide)⟩

/-! ## Claim C9 — scope order of reference resolution -/

/-- Scanning the remainder of a closed reference: once inside back-ticks,
the non-back-tick name characters accumulate and the closing back-tick
resolves the whole accumulated name through the scope chain, appending the
hit or the empty string. -/
theorem substAux_closed_ref (args defs globals : Option CfgArgs)
    (env : String → Option String) (rest : List Char) :
    ∀ (l acc result : List Char), (∀ c ∈ l, c ≠ bq) → acc ++ l ≠ [] →
      substAux args defs globals env (l ++ bq :: rest) true acc result =
        substAux args defs globals env rest false []
          (result ++ ((substLookup args defs globals env
            (String.mk (acc ++ l))).getD "").toList) := by
  intro l
  induction l with
  | nil =>
    intro acc result hl hne
    rw [List.append_nil] at hne
    rw [List.nil_append, substAux_cons_true, if_pos rfl, if_neg hne,
      List.append_nil]
  | cons c l2 ih =>
    intro acc result hl hne
    have hc : c ≠ bq := hl c (by simp)
    rw [List.cons_append, substAux_cons_true, if_neg hc]
    rw [ih (acc ++ [c]) result (fun d hd => hl d (by simp [hd])) (by simp)]
    rw [List.append_assoc, List.singleton_append]

/-- Claim C9: a closed reference is resolved through `args`, then `defs`,
then `globals`, then the process environment, the first scope holding the
name winning (first conjunct, stated extensionally over the chain); a
buffer consisting of one closed reference substitutes to exactly that
resolution (second conjunct); and the concrete S2 scenario — `host_name`
only in globals, `port` in both defs and args, the environment knowing
different values for both — yields dest(h1:6514) with reported length
13 (third conjunct). -/
theorem C9_subst_scope_order :
    (∀ (args defs globals : Option CfgArgs) (env : String → Option String)
        (name v : String),
      (args.bind (fun a => cfg_args_get a name) = some v →
        substLookup args defs globals env name = some v) ∧
      (args.bind (fun a => cfg_args_get a name) = none →
        defs.bind (fun a => cfg_args_get a name) = some v →
        substLookup args defs globals env name = some v) ∧
      (args.bind (fun a => cfg_args_get a name) = none →
        defs.bind (fun a => cfg_args_get a name) = none →
        globals.bind (fun a => cfg_args_get a name) = some v →
        substLookup args defs globals env name = some v) ∧
      (args.bind (fun a => cfg_args_get a name) = none →
        defs.bind (fun a => cfg_args_get a name) = none →
        globals.bind (fun a => cfg_args_get a name) = none →
        substLookup args defs globals env name = env name)) ∧
    (∀ (args defs globals : Option CfgArgs) (env : String → Option String)
        (name : String), name ≠ "" → (∀ c ∈ name.toList, c ≠ bq) →
      cfg_lexer_subst_args globals defs args env
          (String.mk (bq :: (name.toList ++ [bq]))) =
        some ((substLookup args defs globals env name).getD "",
              ((substLookup args defs globals env name).getD "").length)) ∧
    cfg_lexer_subst_args (some s2globals) (some s2defs) (some s2args) s2env
        s2input = some ("dest(h1:6514)", 13) := by
  refine ⟨?_, ?_, by decide⟩
  · intro args defs globals env name v
    refine ⟨fun h1 => ?_, fun h1 h2 => ?_, fun h1 h2 h3 => ?_,
      fun h1 h2 h3 => ?_⟩
    · unfold substLookup
      rw [h1]
    · unfold substLookup
      rw [h1, h2]
    · unfold substLookup
      rw [h1, h2, h3]
    · unfold substLookup
      rw [h1, h2, h3]
  · intro args defs globals env name hne hnb
    have hl : name.toList ≠ [] := by
      cases name with
      | mk d => simpa [String.ext_iff] using hne
    unfold cfg_lexer_subst_args
    rw [show (String.mk (bq :: (name.toList ++ [bq]))).toList =
        bq :: (name.toList ++ [bq]) from rfl]
    rw [show substAux args defs globals env (bq :: (name.toList ++ [bq]))
          false [] [] =
        substAux args defs globals env (name.toList ++ bq :: []) true [] []
      from by rw [substAux_cons_false, if_pos rfl]]
    rw [substAux_closed_ref args defs globals env [] name.toList [] [] hnb
      (by simpa using hl)]
    rfl

/-- Witness for C9: the second conjunct applied to a single-reference
buffer whose name resolves in `args` (first scope). -/
theorem C9_subst_scope_order_witness :
    cfg_lexer_subst_args none none (some s2args) (fun _ => none)
        (String.mk (bq :: ("port".toList ++ [bq]))) = some ("6514", 4) := by
  rw [C9_subst_scope_order.2.1 (some s2args) none none (fun _ => none)
    "port" (by decide) (by decide)]
  rfl

/-! ## Claim C10 — `__VARARGS__` filling -/

/-- Looking a key up right after setting it finds the new value. -/
theorem alist_lookup_set_self (l : List (String × String)) (k v : String) :
    alist_lookup (alist_set l k v) k = some v := by
  induction l with
  | nil => simp [alist_set, alist_lookup]
  | cons p rest ih =>
    by_cases hp : p.1 = k
    · simp [alist_set, alist_lookup, hp]
    · simp only [alist_set]
      rw [if_neg hp]
      simp only [alist_lookup, List.find?_cons]
      rw [show (p.1 == k) = false from by simpa using hp]
      exact ih

/-- A key held by no entry looks up to nothing. -/
theorem alist_lookup_eq_none (l : List (String × String)) (t : String)
    (h : ∀ p ∈ l, p.1 ≠ t) : alist_lookup l t = none := by
  induction l with
  | nil => simp [alist_lookup]
  | cons p rest ih =>
    have hp := h p (by simp)
    simp only [alist_lookup, List.find?]
    rw [show (p.1 == t) = false by simpa using hp]
    simpa [alist_lookup] using ih (fun q hq => h q (by simp [hq]))

/-- Every entry after a set either carries the set key or was already
present. -/
theorem alist_set_keys (l : List (String × String)) (k v : String) :
    ∀ p ∈ alist_set l k v, p.1 = k ∨ p ∈ l := by
  induction l with
  | nil => simp [alist_set]
  | cons q rest ih =>
    intro p hp
    simp only [alist_set] at hp
    by_cases hq : q.1 = k
    · rw [if_pos hq] at hp
      rcases List.mem_cons.mp hp with h | h
      · exact Or.inl (by rw [h])
      · exact Or.inr (List.mem_cons_of_mem q h)
    · rw [if_neg hq] at hp
      rcases List.mem_cons.mp hp with h | h
      · exact Or.inr (by simp [h])
      · rcases ih p h with h2 | h2
        · exact Or.inl h2
        · exact Or.inr (List.mem_cons_of_mem q h2)

/-- The varargs fold of `_fill_varargs` concatenates, left to right, the
formatted pairs whose key misses the argument definitions. -/
theorem foldl_varargs (defs : CfgArgs) :
    ∀ (l : List (String × String)) (acc : String),
      l.foldl (fun acc2 kv =>
        if cfg_args_get defs kv.1 = none then
          acc2 ++ kv.1 ++ "(" ++ kv.2 ++ ") "
        else acc2) acc =
      acc ++ ((l.filter (fun kv => cfg_args_get defs kv.1 = none)).map
        (fun kv => kv.1 ++ "(" ++ kv.2 ++ ") ")).foldr
          (fun a b => a ++ b) "" := by
  intro l
  induction l with
  | nil =>
    intro acc
    simp [String.append_empty]
  | cons kv rest ih =>
    intro acc
    by_cases hkv : cfg_args_get defs kv.1 = none
    · rw [List.foldl_cons, if_pos hkv, ih, List.filter_cons_of_pos (by simp [hkv]),
        List.map_cons, List.foldr_cons]
      simp [String.append_assoc]
    · rw [List.foldl_cons, if_neg hkv, ih,
        List.filter_cons_of_neg (by simp [hkv])]

/-- Retrieving the reserved varargs name after storing it: the raw key
misses (all stored keys are normalized, and the reserved name is not its
own normalization), so the normalized retry finds the freshly set
value. -/
theorem cfg_args_get_set_varargs (args : CfgArgs) (V : String)
    (h : ∀ p ∈ args.args, normalize_key p.1 = p.1) :
    cfg_args_get (cfg_args_set args "__VARARGS__" V) "__VARARGS__" = some V := by
  unfold cfg_args_get cfg_args_set
  rw [show normalize_key "__VARARGS__" = "__varargs__" from by decide]
  have hraw : alist_lookup (alist_set args.args "__varargs__" V)
      "__VARARGS__" = none := by
    apply alist_lookup_eq_none
    intro p hp
    rcases alist_set_keys args.args "__varargs__" V p hp with h1 | h1
    · rw [h1]
      decide
    · intro hcontra
      have h2 := h p h1
      rw [hcontra] at h2
      exact absurd h2 (by decide)
  rw [hraw, alist_lookup_set_self args.args "__varargs__" V]

/-- Claim C10: `cfg_block_generate` always routes the argument map through
`_fill_varargs`, which stores — retrievable under the reserved name
`__VARARGS__` — the concatenation, in the map's iteration order, of
"name(value) " over exactly the arguments absent from the block's
`arg_defs`; a caller-supplied varargs entry (necessarily under the
normalized key, since `cfg_args_set` normalizes) that is itself absent
from `arg_defs` is folded into the concatenation like any other argument
and its value is then overwritten.  The hypothesis states that the map's
keys are in normalized form, which is an invariant of maps built through
`cfg_args_set`. -/
theorem C10_varargs_stored (globals : CfgArgs) (env : String → Option String)
    (block : CfgBlock) (args : CfgArgs)
    (h : ∀ p ∈ args.args, normalize_key p.1 = p.1) :
    cfg_args_get (cfg_block_generate globals env block args).args "__VARARGS__" =
      some (((args.args.filter
          (fun kv => cfg_args_get block.arg_defs kv.1 = none)).map
        (fun kv => kv.1 ++ "(" ++ kv.2 ++ ") ")).foldr
          (fun a b => a ++ b) "") := by
  show cfg_args_get (_fill_varargs block args) "__VARARGS__" = _
  have hfill : _fill_varargs block args = cfg_args_set args "__VARARGS__"
      (args.args.foldl (fun acc2 kv =>
        if cfg_args_get block.arg_defs kv.1 = none then
          acc2 ++ kv.1 ++ "(" ++ kv.2 ++ ") "
        else acc2) "") := rfl
  rw [hfill, foldl_varargs block.arg_defs args.args "", String.empty_append]
  exact cfg_args_get_set_varargs args _ h

/-- Witness for C10 on a concrete argument map carrying an unknown
argument, a declared argument and a caller-supplied varargs entry. -/
theorem C10_varargs_stored_witness :
    cfg_args_get (cfg_block_generate ⟨[]⟩ (fun _ => none)
        ⟨"tpl", varargsDefs⟩ varargsArgs).args "__VARARGS__" =
      some "port(6514) __varargs__(x(1) ) " := by
  rw [C10_varargs_stored ⟨[]⟩ (fun _ => none) ⟨"tpl", varargsDefs⟩ varargsArgs
    (by decide)]
  rfl
